import Mathlib

/-!
Shallow embedding of the user-service CRUD core (FastAPI + MongoDB):
routes in src/routes/user_routes.py, exception taxonomy in
src/utils/exceptions.py, response models in src/models/responses.py.
The Mongo collection is modelled as a list of documents in insertion
order; ObjectId keys are natural numbers with a 24-hex-digit external
string form; each document body is an association list of string
fields, so that the difference between a full replace and a
MongoDB $set field-wise merge is visible in the model.
-/

namespace UserSvc

/-- A stored user document: the store-assigned ObjectId key plus the
document body as an association list of string fields in insertion
order (the Python dict preserves insertion order). -/
structure UserDoc where
  oid : Nat
  body : List (String × String)
deriving DecidableEq

/-- The mutable world the routes touch: the users collection in
insertion order, the next ObjectId the store will assign (the store
must assign a unique key on insert), and the position in the entropy
stream consumed by bcrypt.gensalt. -/
structure DB where
  users : List UserDoc
  nextOid : Nat
  saltCtr : Nat
deriving DecidableEq

/-- The empty store. -/
def emptyDB : DB := ⟨[], 0, 0⟩

/-- Request body of POST /api/users (models.user.UserCreate:
name, email, password, in that field order). -/
structure UserCreate where
  name : String
  email : String
  password : String
deriving DecidableEq

/-- Request body of PUT /api/users/id (models.user.UserUpdate:
same fields as UserCreate). -/
structure UserUpdate where
  name : String
  email : String
  password : String
deriving DecidableEq

/-- The data field of a response envelope: a single user document,
a list of user documents, a deleted count, or error context. -/
inductive RespData where
  | doc : List (String × String) → RespData
  | docs : List (List (String × String)) → RespData
  | delCount : Nat → RespData
  | errCtx : Option String → Option String → RespData
deriving DecidableEq

/-- The uniform response envelope (models.responses: success,
statusCode, message, data, and count on list responses). -/
structure Envelope where
  success : Bool
  statusCode : Nat
  message : String
  data : RespData
  count : Option Nat
deriving DecidableEq

/-- The classified errors the routes raise (src/utils/exceptions.py):
NotFoundException, AlreadyExistsException, BadRequestException, each
carrying the constructor arguments of the Python class.  internalError
stands for an unhandled exception escaping a route (no route reaches
it in this model). -/
inductive AppError where
  | notFound (resource : String) (identifier : Option String)
  | alreadyExists (resource : String) (identifier : Option String)
  | badRequest (message : String) (resource : Option String) (identifier : Option String)
  | internalError
deriving DecidableEq

/-- Status code of each exception class (src/utils/exceptions.py:
404 for NotFoundException, 409 for AlreadyExistsException, 400 for
BadRequestException, 500 for an internal error). -/
def AppError.statusCode : AppError → Nat
  | .notFound _ _ => 404
  | .alreadyExists _ _ => 409
  | .badRequest _ _ _ => 400
  | .internalError => 500

/-- Human-readable message built by each exception constructor
(src/utils/exceptions.py). -/
def AppError.message : AppError → String
  | .notFound r none => r ++ " no encontrado"
  | .notFound r (some i) => r ++ " no encontrado" ++ " con identificador: " ++ i
  | .alreadyExists r none => r ++ " ya existe"
  | .alreadyExists r (some i) => r ++ " ya existe" ++ " con: " ++ i
  | .badRequest m _ _ => m
  | .internalError => "Error interno del servidor"

/-- Resource context field of the exception detail
(CustomHTTPException.build of src/utils/exceptions.py). -/
def AppError.resource : AppError → Option String
  | .notFound r _ => some r
  | .alreadyExists r _ => some r
  | .badRequest _ r _ => r
  | .internalError => none

/-- Identifier context field of the exception detail
(CustomHTTPException.build of src/utils/exceptions.py). -/
def AppError.identifier : AppError → Option String
  | .notFound _ i => i
  | .alreadyExists _ i => i
  | .badRequest _ _ i => i
  | .internalError => none

/-- Modelled from the spec: utils/response.py (the success_response
helper every route calls) is not among the sources; per the spec the
envelope carries success, statusCode, message, data, and list
responses additionally carry count equal to the length of data. -/
def success_response (data : RespData) (message : String) (status_code : Nat) : Envelope :=
  { success := true
    statusCode := status_code
    message := message
    data := data
    count := match data with
      | .docs l => some l.length
      | _ => none }

/-- Modelled from the spec: utils/middleware.py (the exception handler
installed by setup_exception_handlers) is not among the sources; per
the spec the boundary layer translates a classified error into the
envelope shape, with message and the resource and identifier context
surfaced verbatim in the envelope data. -/
def error_envelope (e : AppError) : Envelope :=
  { success := false
    statusCode := e.statusCode
    message := e.message
    data := .errCtx e.resource e.identifier
    count := none }

/-! Identifier codec: bson.ObjectId as called by the routes. -/

/-- Hexadecimal digit test of bytes.fromhex: both lowercase and
uppercase letters are accepted. -/
def isHexChar (c : Char) : Bool :=
  c.isDigit || (('a' ≤ c && c ≤ 'f') || ('A' ≤ c && c ≤ 'F'))

/-- The characters bytes.fromhex skips around digit pairs: the six
ASCII whitespace characters (verified against CPython 3.11, whose
fromhex skips all ASCII whitespace, not only spaces). -/
def isFromhexSkip (c : Char) : Bool :=
  c == ' ' || c == '\t' || c == '\n' || c == '\x0b' || c == '\x0c' || c == '\r'

/-- Acceptance of bytes.fromhex on a character sequence: ASCII
whitespace is skipped before a pair and at the end, then a pair is two
hexadecimal digits with the second immediately following the first (a
whitespace splitting a pair, or a dangling lone digit, is an error). -/
def fromhexOk : List Char → Bool
  | [] => true
  | [c] => isFromhexSkip c
  | c :: d :: rest =>
    if isFromhexSkip c then fromhexOk (d :: rest)
    else isHexChar c && isHexChar d && fromhexOk rest

/-- bson.ObjectId.is_valid on a string argument: ObjectId accepts a
string of exactly 24 characters that bytes.fromhex can decode, and
never rechecks the decoded byte count.  fromhex decodes hexadecimal
digit pairs, lowercase or uppercase, skipping ASCII whitespace between
pairs, so whitespace-padded 24-character strings decoding to fewer
than twelve bytes are accepted too. -/
def ObjectId_is_valid (s : String) : Bool :=
  s.length == 24 && fromhexOk s.data

/-- Value of one hexadecimal digit (either case). -/
def hexVal (c : Char) : Nat :=
  if c.isDigit then c.toNat - 48
  else if 'a' ≤ c && c ≤ 'f' then c.toNat - 87
  else if 'A' ≤ c && c ≤ 'F' then c.toNat - 55
  else 0

/-- bson.ObjectId(s): the internal key a valid identifier string
denotes, abstracted as the numeric value of its decoded hexadecimal
digits (the characters bytes.fromhex skips contribute nothing).  The
abstraction does not track the decoded byte count, and no lookup
theorem is stated for identifiers decoding to fewer than twelve
bytes. -/
def parseOid (s : String) : Nat :=
  s.data.foldl (fun a c => if isHexChar c then a * 16 + hexVal c else a) 0

/-- str(ObjectId): the 24-character lowercase-hexadecimal external
form of a key (Nat.toDigits 16 yields lowercase hex digits). -/
def oidToStr (n : Nat) : String :=
  let ds := Nat.toDigits 16 n
  String.mk (List.replicate (24 - ds.length) '0' ++ ds)

/-! Credential hasher: bcrypt as called by hash_password. -/

/-- Modelled from the spec: the bcrypt library is outside the sources;
per the spec gensalt generates a fresh random salt per call (salts of
distinct calls differ) and the salt string embeds the fixed cost
factor.  The entropy stream position n determines the salt, and
distinct positions give salts of distinct lengths. -/
def bcryptGensalt (n : Nat) : String :=
  "$2b$12$" ++ String.mk (List.replicate (n + 1) 'a')

/-- Modelled from the spec: the digest core bcrypt derives from the
plaintext (a one-way function in the real library; here an explicit
character-wise transformation of the same length as the plaintext). -/
def bcryptCore (p : String) : String :=
  String.mk (p.data.map (fun c => Char.ofNat ((c.toNat + 1) % 128)))

/-- Modelled from the spec: bcrypt.hashpw returns a single
self-describing digest string: the salt string (which embeds the cost
factor) followed by the derived core. -/
def bcryptHashpw (p salt : String) : String :=
  salt ++ bcryptCore p

/-- hash_password of src/routes/user_routes.py: draw a fresh salt from
the entropy stream and return bcrypt.hashpw of the password with it.
The entropy consumption is threaded through the DB state. -/
def hash_password (db : DB) (password : String) : String × DB :=
  (bcryptHashpw password (bcryptGensalt db.saltCtr), { db with saltCtr := db.saltCtr + 1 })

/-! Store primitives: the motor collection calls the routes make. -/

/-- db.users.find(ANY) followed by to_list: every document, in
storage order. -/
def findAll (db : DB) : List UserDoc := db.users

/-- db.users.find_one on an email equality filter: the first document
whose email field equals the given value. -/
def findOneByEmail (db : DB) (e : String) : Option UserDoc :=
  db.users.find? (fun u => u.body.lookup "email" == some e)

/-- db.users.find_one on an id equality filter. -/
def findOneById (db : DB) (k : Nat) : Option UserDoc :=
  db.users.find? (fun u => u.oid == k)

/-- db.users.find_one on an email filter that excludes one id
(the update route passes an id-not-equal condition). -/
def findOneByEmailNe (db : DB) (e : String) (k : Nat) : Option UserDoc :=
  db.users.find? (fun u => u.body.lookup "email" == some e && u.oid != k)

/-- db.users.insert_one: append the document, assign the next key. -/
def insertOne (db : DB) (body : List (String × String)) : DB × Nat :=
  ({ db with users := db.users ++ [⟨db.nextOid, body⟩], nextOid := db.nextOid + 1 },
   db.nextOid)

/-- One step of a MongoDB set modifier on a document body: replace the
value of the key in place if the key is present, otherwise append the
field at the end. -/
def setKey (body : List (String × String)) (kv : String × String) : List (String × String) :=
  match body with
  | [] => [kv]
  | (k, v) :: rest => if k == kv.1 then (k, kv.2) :: rest else (k, v) :: setKey rest kv

/-- A MongoDB set modifier applying a list of fields to a body. -/
def mongoSet (body fields : List (String × String)) : List (String × String) :=
  fields.foldl setKey body

/-- Apply the set modifier to the first document matching the key and
leave the rest of the collection unchanged (update_one updates at most
one document). -/
def setFirstMatch (k : Nat) (fields : List (String × String)) :
    List UserDoc → List UserDoc
  | [] => []
  | u :: rest =>
    if u.oid == k then { u with body := mongoSet u.body fields } :: rest
    else u :: setFirstMatch k fields rest

/-- db.users.update_one on an id filter with a set modifier. -/
def updateOneSet (db : DB) (k : Nat) (fields : List (String × String)) : DB :=
  { db with users := setFirstMatch k fields db.users }

/-- Remove the first document matching the key, reporting how many
documents were removed (delete_one removes at most one). -/
def deleteFirst (k : Nat) : List UserDoc → List UserDoc × Nat
  | [] => ([], 0)
  | u :: rest =>
    if u.oid == k then (rest, 1)
    else
      let r := deleteFirst k rest
      (u :: r.1, r.2)

/-- db.users.delete_one on an id filter, returning the new collection
and the deleted count. -/
def deleteOne (db : DB) (k : Nat) : DB × Nat :=
  let r := deleteFirst k db.users
  ({ db with users := r.1 }, r.2)

/-- The dict a route returns for one document: the body with the key
written back as its 24-hex string under the id field (the route
mutates the dict in place, so the id keeps its leading position). -/
def docDict (u : UserDoc) : List (String × String) :=
  ("_id", oidToStr u.oid) :: u.body

/-! The five route handlers of src/routes/user_routes.py. -/

/-- GET /api/users/ (get_all_users): read every document, stringify
each id, wrap in a success envelope. -/
def get_all_users (db : DB) : Envelope :=
  let users := db.users.map docDict
  success_response (.docs users)
    ("Se encontraron " ++ toString users.length ++ " usuarios") 200

/-- POST /api/users/ (create_user): reject if a document already
holds the email, otherwise hash the password, insert the document,
re-read it by the assigned key and return it with status 201. -/
def create_user (db : DB) (user : UserCreate) : DB × Except AppError Envelope :=
  match findOneByEmail db user.email with
  | some _ =>
    (db, .error (.alreadyExists "Usuario" (some ("email " ++ user.email))))
  | none =>
    let h := hash_password db user.password
    let body := [("name", user.name), ("email", user.email), ("hashed_password", h.1)]
    let ins := insertOne h.2 body
    match findOneById ins.1 ins.2 with
    | some created =>
      (ins.1, .ok (success_response (.doc (docDict created)) "Usuario creado exitosamente" 201))
    | none => (ins.1, .error .internalError)

/-- GET /api/users/id (get_user): validate the id, fetch the document,
404 if absent, else return it in a success envelope. -/
def get_user (db : DB) (user_id : String) : Except AppError Envelope :=
  if ObjectId_is_valid user_id = false then
    .error (.badRequest "ID de usuario inválido" none (some user_id))
  else
    match findOneById db (parseOid user_id) with
    | none => .error (.notFound "Usuario" (some user_id))
    | some u => .ok (success_response (.doc (docDict u)) "Usuario obtenido exitosamente" 200)

/-- PUT /api/users/id (update_user): validate the id, require the
document to exist, reject if another document holds the new email,
hash the new password, apply a set modifier with the three fields,
re-read and return the document. -/
def update_user (db : DB) (user_id : String) (uu : UserUpdate) : DB × Except AppError Envelope :=
  if ObjectId_is_valid user_id = false then
    (db, .error (.badRequest "ID de usuario inválido" none (some user_id)))
  else
    match findOneById db (parseOid user_id) with
    | none => (db, .error (.notFound "Usuario" (some user_id)))
    | some _ =>
      match findOneByEmailNe db uu.email (parseOid user_id) with
      | some _ =>
        (db, .error (.alreadyExists "Usuario" (some ("email " ++ uu.email))))
      | none =>
        let h := hash_password db uu.password
        let fields := [("name", uu.name), ("email", uu.email), ("hashed_password", h.1)]
        let db2 := updateOneSet h.2 (parseOid user_id) fields
        match findOneById db2 (parseOid user_id) with
        | some updated =>
          (db2, .ok (success_response (.doc (docDict updated)) "Usuario actualizado exitosamente" 200))
        | none => (db2, .error .internalError)

/-- Response tail of delete_user: after the existence check the route
wraps whatever deleted count the store reports in a success envelope,
with no branch on the count. -/
def deleteFinish (cnt : Nat) : Envelope :=
  success_response (.delCount cnt) "Usuario eliminado exitosamente" 200

/-- DELETE /api/users/id (delete_user): validate the id, require the
document to exist, delete by id, return the deleted count. -/
def delete_user (db : DB) (user_id : String) : DB × Except AppError Envelope :=
  if ObjectId_is_valid user_id = false then
    (db, .error (.badRequest "ID de usuario inválido" none (some user_id)))
  else
    match findOneById db (parseOid user_id) with
    | none => (db, .error (.notFound "Usuario" (some user_id)))
    | some _ =>
      let r := deleteOne db (parseOid user_id)
      (r.1, .ok (deleteFinish r.2))

/-! Sequential operation sequences over the store. -/

/-- One sequential client operation (the mutating ones). -/
inductive Op where
  | create (name email password : String)
  | update (id name email password : String)
  | delete (id : String)
deriving DecidableEq

/-- The store state an operation leaves behind. -/
def applyOp (db : DB) : Op → DB
  | .create n e p => (create_user db ⟨n, e, p⟩).1
  | .update i n e p => (update_user db i ⟨n, e, p⟩).1
  | .delete i => (delete_user db i).1

/-- The store state after a sequence of sequential operations. -/
def applyOps (db : DB) (ops : List Op) : DB :=
  ops.foldl applyOp db

/-- The email field of a stored document. -/
def emailOf (u : UserDoc) : Option String := u.body.lookup "email"

/-- How many stored documents hold a given email. -/
def emailCount (db : DB) (e : String) : Nat :=
  db.users.countP (fun u => emailOf u == some e)

/-- At most one stored document holds any given email. -/
def EmailsUnique (db : DB) : Prop := ∀ e, emailCount db e ≤ 1

/-- The store assigns unique keys: no two documents share an id. -/
def KeysNodup (db : DB) : Prop := (db.users.map UserDoc.oid).Nodup

/-- Every stored key is below the next key the store will assign. -/
def KeysBounded (db : DB) : Prop := ∀ u ∈ db.users, u.oid < db.nextOid

/-- Every stored document body is exactly a name, an email and a
hashed password field, in that order (the shape create_user inserts). -/
def WellFormed (db : DB) : Prop :=
  ∀ u ∈ db.users, ∃ a b c, u.body = [("name", a), ("email", b), ("hashed_password", c)]

/-! Helper lemmas about the set modifier. -/

theorem lookup_setKey_self (body : List (String × String)) (k v : String) :
    (setKey body (k, v)).lookup k = some v := by
  induction body with
  | nil => simp [setKey, List.lookup]
  | cons hd tl ih =>
    obtain ⟨a, b⟩ := hd
    by_cases h : a = k
    · subst h; simp [setKey, List.lookup]
    · have hka : (k == a) = false := by simp [Ne.symm h]
      simp [setKey, List.lookup, h, hka, ih]

theorem lookup_setKey_ne (body : List (String × String)) (k k' v : String) (hkk : k ≠ k') :
    (setKey body (k', v)).lookup k = body.lookup k := by
  have hb : (k == k') = false := by simp [hkk]
  induction body with
  | nil => simp [setKey, List.lookup, hb]
  | cons hd tl ih =>
    obtain ⟨a, b⟩ := hd
    by_cases ha : a = k'
    · subst ha
      simp [setKey, List.lookup, hb]
    · by_cases hk : k = a
      · subst hk; simp [setKey, List.lookup, ha]
      · have hka : (k == a) = false := by simp [hk]
        simp [setKey, List.lookup, ha, hka, ih]

theorem lookup_mongoSet_email (body : List (String × String)) (n e hp : String) :
    (mongoSet body [("name", n), ("email", e), ("hashed_password", hp)]).lookup "email"
      = some e := by
  show (setKey (setKey (setKey body ("name", n)) ("email", e)) ("hashed_password", hp)).lookup
    "email" = some e
  rw [lookup_setKey_ne _ _ _ _ (by decide)]
  exact lookup_setKey_self _ _ _

theorem mongoSet_wf (a b c n e hp : String) :
    mongoSet [("name", a), ("email", b), ("hashed_password", c)]
      [("name", n), ("email", e), ("hashed_password", hp)]
      = [("name", n), ("email", e), ("hashed_password", hp)] := by
  simp [mongoSet, setKey]

/-! Helper lemmas about updating the first matching document. -/

theorem map_oid_setFirstMatch (k : Nat) (f : List (String × String)) (l : List UserDoc) :
    (setFirstMatch k f l).map UserDoc.oid = l.map UserDoc.oid := by
  induction l with
  | nil => rfl
  | cons u rest ih =>
    by_cases h : u.oid = k
    · simp [setFirstMatch, h]
    · simp [setFirstMatch, h, ih]

theorem find?_setFirstMatch (k : Nat) (f : List (String × String)) (l : List UserDoc)
    (u : UserDoc) (hf : l.find? (fun v => v.oid == k) = some u) :
    (setFirstMatch k f l).find? (fun v => v.oid == k)
      = some { u with body := mongoSet u.body f } := by
  induction l with
  | nil => simp [List.find?] at hf
  | cons w rest ih =>
    by_cases h : w.oid = k
    · rw [List.find?_cons_of_pos _ (by simp [h])] at hf
      cases hf
      simp [setFirstMatch, h]
    · rw [List.find?_cons_of_neg _ (by simp [h])] at hf
      simp [setFirstMatch, h]
      exact ih hf

theorem setFirstMatch_eq_map (k : Nat) (f : List (String × String)) (l : List UserDoc)
    (hnd : (l.map UserDoc.oid).Nodup) :
    setFirstMatch k f l
      = l.map (fun u => if u.oid == k then { u with body := mongoSet u.body f } else u) := by
  induction l with
  | nil => rfl
  | cons w rest ih =>
    rw [List.map_cons, List.nodup_cons] at hnd
    by_cases h : w.oid = k
    · have hrest : ∀ v ∈ rest, ¬(v.oid = k) := by
        intro v hv hvk
        exact hnd.1 (by rw [← h] at hvk; exact hvk ▸ List.mem_map_of_mem UserDoc.oid hv)
      have hmap : rest.map (fun u => if u.oid = k then { u with body := mongoSet u.body f } else u)
          = rest := by
        conv_rhs => rw [← List.map_id rest]
        apply List.map_congr_left
        intro v hv
        simp [hrest v hv]
      simp [setFirstMatch, h]
      exact hmap.symm
    · simp [setFirstMatch, h, ih hnd.2]

theorem mem_setFirstMatch (k : Nat) (f : List (String × String)) (l : List UserDoc)
    (v : UserDoc) (hv : v ∈ setFirstMatch k f l) :
    v ∈ l ∨ ∃ w ∈ l, v = { w with body := mongoSet w.body f } := by
  induction l with
  | nil => simp [setFirstMatch] at hv
  | cons w rest ih =>
    by_cases h : w.oid = k
    · rw [show setFirstMatch k f (w :: rest) = { w with body := mongoSet w.body f } :: rest by
        simp [setFirstMatch, h]] at hv
      rcases List.mem_cons.mp hv with h1 | h1
      · exact Or.inr ⟨w, List.mem_cons_self _ _, h1⟩
      · exact Or.inl (List.mem_cons_of_mem _ h1)
    · rw [show setFirstMatch k f (w :: rest) = w :: setFirstMatch k f rest by
        simp [setFirstMatch, h]] at hv
      rcases List.mem_cons.mp hv with h1 | h1
      · exact Or.inl (h1 ▸ List.mem_cons_self _ _)
      · rcases ih h1 with h2 | ⟨w', hw', he⟩
        · exact Or.inl (List.mem_cons_of_mem _ h2)
        · exact Or.inr ⟨w', List.mem_cons_of_mem _ hw', he⟩

/-! Helper lemmas about deleting the first matching document. -/

theorem deleteFirst_sublist (k : Nat) (l : List UserDoc) :
    (deleteFirst k l).1.Sublist l := by
  induction l with
  | nil => simp [deleteFirst]
  | cons w rest ih =>
    by_cases h : w.oid = k
    · rw [show (deleteFirst k (w :: rest)).1 = rest by simp [deleteFirst, h]]
      exact List.sublist_cons_self _ _
    · rw [show (deleteFirst k (w :: rest)).1 = w :: (deleteFirst k rest).1 by
        simp [deleteFirst, h]]
      exact List.Sublist.cons₂ _ ih

theorem deleteFirst_of_find? (k : Nat) (l : List UserDoc) (u : UserDoc)
    (hf : l.find? (fun v => v.oid == k) = some u) :
    (deleteFirst k l).2 = 1 ∧ (deleteFirst k l).1.length + 1 = l.length := by
  induction l with
  | nil => simp [List.find?] at hf
  | cons w rest ih =>
    by_cases h : w.oid = k
    · simp [deleteFirst, h]
    · rw [List.find?_cons_of_neg _ (by simp [h])] at hf
      have hih := ih hf
      rw [show deleteFirst k (w :: rest) = (w :: (deleteFirst k rest).1, (deleteFirst k rest).2) by
        simp [deleteFirst, h]]
      simpa using hih

theorem find?_deleteFirst_none (k : Nat) (l : List UserDoc)
    (hnd : (l.map UserDoc.oid).Nodup) :
    (deleteFirst k l).1.find? (fun v => v.oid == k) = none := by
  induction l with
  | nil => simp [deleteFirst]
  | cons w rest ih =>
    rw [List.map_cons, List.nodup_cons] at hnd
    by_cases h : w.oid = k
    · rw [show (deleteFirst k (w :: rest)).1 = rest by simp [deleteFirst, h]]
      rw [List.find?_eq_none]
      intro v hv hvk
      rw [beq_iff_eq] at hvk
      exact hnd.1 (by rw [← h] at hvk; exact hvk ▸ List.mem_map_of_mem UserDoc.oid hv)
    · rw [show (deleteFirst k (w :: rest)).1 = w :: (deleteFirst k rest).1 by
        simp [deleteFirst, h]]
      rw [List.find?_cons_of_neg _ (by simp [h])]
      exact ih hnd.2

/-! Counting lemmas for the uniqueness invariant. -/

theorem countP_oid_le_one (l : List UserDoc) (hnd : (l.map UserDoc.oid).Nodup) (k : Nat) :
    l.countP (fun u => u.oid == k) ≤ 1 := by
  have h : l.countP (fun u => u.oid == k) = (l.map UserDoc.oid).count k := by
    rw [List.count_eq_countP, List.countP_map]
    rfl
  rw [h]
  exact List.nodup_iff_count_le_one.mp hnd k

/-! Characterization of each route branch. -/

theorem create_user_conflict (db : DB) (uc : UserCreate) (w : UserDoc)
    (hf : findOneByEmail db uc.email = some w) :
    create_user db uc
      = (db, .error (.alreadyExists "Usuario" (some ("email " ++ uc.email)))) := by
  simp [create_user, hf]

/-- The document create_user inserts for a request. -/
def createdDoc (db : DB) (uc : UserCreate) : UserDoc :=
  ⟨db.nextOid,
   [("name", uc.name), ("email", uc.email),
    ("hashed_password", bcryptHashpw uc.password (bcryptGensalt db.saltCtr))]⟩

theorem create_user_fresh (db : DB) (uc : UserCreate) (hb : KeysBounded db)
    (hf : findOneByEmail db uc.email = none) :
    create_user db uc
      = ({ users := db.users ++ [createdDoc db uc],
           nextOid := db.nextOid + 1, saltCtr := db.saltCtr + 1 },
         .ok (success_response (.doc (docDict (createdDoc db uc)))
           "Usuario creado exitosamente" 201)) := by
  have hnone : db.users.find? (fun u => u.oid == db.nextOid) = none := by
    rw [List.find?_eq_none]
    intro u hu
    simp [Nat.ne_of_lt (hb u hu)]
  simp [create_user, hf, hash_password, insertOne, findOneById, createdDoc,
    List.find?_append, hnone]

theorem get_user_invalid (db : DB) (s : String) (hv : ObjectId_is_valid s = false) :
    get_user db s = .error (.badRequest "ID de usuario inválido" none (some s)) := by
  simp [get_user, hv]

theorem get_user_missing (db : DB) (s : String) (hv : ObjectId_is_valid s = true)
    (hf : findOneById db (parseOid s) = none) :
    get_user db s = .error (.notFound "Usuario" (some s)) := by
  simp [get_user, hv, hf]

theorem get_user_found (db : DB) (s : String) (u : UserDoc)
    (hv : ObjectId_is_valid s = true) (hf : findOneById db (parseOid s) = some u) :
    get_user db s
      = .ok (success_response (.doc (docDict u)) "Usuario obtenido exitosamente" 200) := by
  simp [get_user, hv, hf]

theorem update_user_invalid (db : DB) (s : String) (uu : UserUpdate)
    (hv : ObjectId_is_valid s = false) :
    update_user db s uu = (db, .error (.badRequest "ID de usuario inválido" none (some s))) := by
  simp [update_user, hv]

theorem update_user_missing (db : DB) (s : String) (uu : UserUpdate)
    (hv : ObjectId_is_valid s = true) (hf : findOneById db (parseOid s) = none) :
    update_user db s uu = (db, .error (.notFound "Usuario" (some s))) := by
  simp [update_user, hv, hf]

theorem update_user_conflict (db : DB) (s : String) (uu : UserUpdate) (u w : UserDoc)
    (hv : ObjectId_is_valid s = true) (hf : findOneById db (parseOid s) = some u)
    (hg : findOneByEmailNe db uu.email (parseOid s) = some w) :
    update_user db s uu
      = (db, .error (.alreadyExists "Usuario" (some ("email " ++ uu.email)))) := by
  simp [update_user, hv, hf, hg]

/-- The set-modifier fields update_user applies for a request. -/
def updateFields (db : DB) (uu : UserUpdate) : List (String × String) :=
  [("name", uu.name), ("email", uu.email),
   ("hashed_password", bcryptHashpw uu.password (bcryptGensalt db.saltCtr))]

theorem update_user_ok (db : DB) (s : String) (uu : UserUpdate) (u : UserDoc)
    (hv : ObjectId_is_valid s = true) (hf : findOneById db (parseOid s) = some u)
    (hg : findOneByEmailNe db uu.email (parseOid s) = none) :
    update_user db s uu
      = ({ users := setFirstMatch (parseOid s) (updateFields db uu) db.users,
           nextOid := db.nextOid, saltCtr := db.saltCtr + 1 },
         .ok (success_response
           (.doc (docDict { u with body := mongoSet u.body (updateFields db uu) }))
           "Usuario actualizado exitosamente" 200)) := by
  have hf2 : (setFirstMatch (parseOid s) (updateFields db uu) db.users).find?
      (fun v => v.oid == parseOid s)
      = some { u with body := mongoSet u.body (updateFields db uu) } :=
    find?_setFirstMatch _ _ _ _ hf
  unfold updateFields at hf2
  have hf3 : List.find? (fun u => u.oid == parseOid s) db.users = some u := hf
  simp [update_user, hv, hf, hg, hash_password, updateOneSet, findOneById,
    updateFields, hf2, hf3]

theorem delete_user_invalid (db : DB) (s : String) (hv : ObjectId_is_valid s = false) :
    delete_user db s = (db, .error (.badRequest "ID de usuario inválido" none (some s))) := by
  simp [delete_user, hv]

theorem delete_user_missing (db : DB) (s : String) (hv : ObjectId_is_valid s = true)
    (hf : findOneById db (parseOid s) = none) :
    delete_user db s = (db, .error (.notFound "Usuario" (some s))) := by
  simp [delete_user, hv, hf]

theorem delete_user_found (db : DB) (s : String) (u : UserDoc)
    (hv : ObjectId_is_valid s = true) (hf : findOneById db (parseOid s) = some u) :
    delete_user db s
      = ({ db with users := (deleteFirst (parseOid s) db.users).1 },
         .ok (deleteFinish (deleteFirst (parseOid s) db.users).2)) := by
  simp [delete_user, hv, hf, deleteOne]

/-! Preservation of the store invariants by the sequential operations. -/

theorem emailCount_eq_zero (db : DB) (e : String) (hf : findOneByEmail db e = none) :
    db.users.countP (fun u => emailOf u == some e) = 0 := by
  rw [List.countP_eq_zero]
  intro u hu
  have h := List.find?_eq_none.mp hf u hu
  simpa [emailOf] using h

theorem emailOf_createdDoc (db : DB) (uc : UserCreate) :
    emailOf (createdDoc db uc) = some uc.email := by
  simp [emailOf, createdDoc, List.lookup]

theorem findOneByEmailNe_none (db : DB) (e : String) (k : Nat)
    (hg : findOneByEmailNe db e k = none) :
    ∀ v ∈ db.users, emailOf v = some e → v.oid = k := by
  intro v hv he
  have h := List.find?_eq_none.mp hg v hv
  rw [emailOf] at he
  simp [he] at h
  exact h

theorem emailsUnique_setFirstMatch (l : List UserDoc) (k : Nat) (n e hp : String)
    (hnd : (l.map UserDoc.oid).Nodup)
    (hu : ∀ e', l.countP (fun u => emailOf u == some e') ≤ 1)
    (hg : ∀ u ∈ l, emailOf u = some e → u.oid = k) :
    ∀ e', (setFirstMatch k [("name", n), ("email", e), ("hashed_password", hp)] l).countP
      (fun u => emailOf u == some e') ≤ 1 := by
  intro e'
  rw [setFirstMatch_eq_map _ _ _ hnd, List.countP_map]
  by_cases he : e' = e
  · subst he
    rw [List.countP_congr (q := fun u => u.oid == k) ?hc]
    · exact countP_oid_le_one l hnd k
    case hc =>
      intro u hu'
      by_cases hk : u.oid = k
      · simp [Function.comp, hk, emailOf, lookup_mongoSet_email]
      · have hne : ¬(emailOf u = some e') := fun hcon => hk (hg u hu' hcon)
        simp only [Function.comp]
        rw [if_neg (by simp [hk])]
        simp [hk, emailOf] at hne ⊢
        exact fun hcon => absurd hcon hne
  · refine le_trans (List.countP_mono_left ?_) (hu e')
    intro u hu'
    by_cases hk : u.oid = k
    · simp only [Function.comp]
      rw [if_pos (by simp [hk])]
      intro hcon
      rw [show emailOf { u with body := mongoSet u.body [("name", n), ("email", e), ("hashed_password", hp)] } = some e by
        simp [emailOf, lookup_mongoSet_email]] at hcon
      simp at hcon
      exact absurd hcon.symm he
    · simp only [Function.comp]
      rw [if_neg (by simp [hk])]
      exact id

theorem inv3_create (db : DB) (uc : UserCreate)
    (h1 : EmailsUnique db) (h2 : KeysNodup db) (h3 : KeysBounded db) :
    EmailsUnique (create_user db uc).1 ∧ KeysNodup (create_user db uc).1 ∧
      KeysBounded (create_user db uc).1 := by
  cases hf : findOneByEmail db uc.email with
  | some w => rw [create_user_conflict db uc w hf]; exact ⟨h1, h2, h3⟩
  | none =>
    rw [create_user_fresh db uc h3 hf]
    refine ⟨?_, ?_, ?_⟩
    · intro e
      rw [EmailsUnique, emailCount] at *
      by_cases he : e = uc.email
      · subst he
        have h0 := emailCount_eq_zero db uc.email hf
        simp [List.countP_append, h0, emailOf_createdDoc]
      · have hne : (emailOf (createdDoc db uc) == some e) = false := by
          simp [emailOf_createdDoc]
          exact fun hcon => he hcon.symm
        simp [List.countP_append, hne]
        exact h1 e
    · rw [KeysNodup]
      simp only [List.map_append]
      rw [List.nodup_append]
      refine ⟨h2, by simp, ?_⟩
      intro a ha hb
      simp [createdDoc] at hb
      obtain ⟨u, hu, hou⟩ := List.mem_map.mp ha
      rw [← hou] at hb
      exact absurd (h3 u hu) (by simp [hb])
    · intro u hu
      rcases List.mem_append.mp hu with h | h
      · exact Nat.lt_succ_of_lt (h3 u h)
      · simp at h
        simp [h, createdDoc]

theorem inv3_update (db : DB) (s : String) (uu : UserUpdate)
    (h1 : EmailsUnique db) (h2 : KeysNodup db) (h3 : KeysBounded db) :
    EmailsUnique (update_user db s uu).1 ∧ KeysNodup (update_user db s uu).1 ∧
      KeysBounded (update_user db s uu).1 := by
  cases hv : ObjectId_is_valid s with
  | false => rw [update_user_invalid db s uu hv]; exact ⟨h1, h2, h3⟩
  | true =>
    cases hfo : findOneById db (parseOid s) with
    | none => rw [update_user_missing db s uu hv hfo]; exact ⟨h1, h2, h3⟩
    | some u =>
      cases hg : findOneByEmailNe db uu.email (parseOid s) with
      | some w => rw [update_user_conflict db s uu u w hv hfo hg]; exact ⟨h1, h2, h3⟩
      | none =>
        rw [update_user_ok db s uu u hv hfo hg]
        refine ⟨?_, ?_, ?_⟩
        · intro e'
          exact emailsUnique_setFirstMatch db.users (parseOid s) uu.name uu.email
            (bcryptHashpw uu.password (bcryptGensalt db.saltCtr)) h2 h1
            (findOneByEmailNe_none db uu.email (parseOid s) hg) e'
        · rw [KeysNodup]
          show ((setFirstMatch (parseOid s) (updateFields db uu) db.users).map UserDoc.oid).Nodup
          rw [map_oid_setFirstMatch]
          exact h2
        · intro v hv'
          rcases mem_setFirstMatch _ _ _ _ hv' with h | ⟨w, hw, he⟩
          · exact h3 v h
          · rw [he]
            exact h3 w hw

theorem inv3_delete (db : DB) (s : String)
    (h1 : EmailsUnique db) (h2 : KeysNodup db) (h3 : KeysBounded db) :
    EmailsUnique (delete_user db s).1 ∧ KeysNodup (delete_user db s).1 ∧
      KeysBounded (delete_user db s).1 := by
  cases hv : ObjectId_is_valid s with
  | false => rw [delete_user_invalid db s hv]; exact ⟨h1, h2, h3⟩
  | true =>
    cases hfo : findOneById db (parseOid s) with
    | none => rw [delete_user_missing db s hv hfo]; exact ⟨h1, h2, h3⟩
    | some u =>
      rw [delete_user_found db s u hv hfo]
      have hsub := deleteFirst_sublist (parseOid s) db.users
      refine ⟨?_, ?_, ?_⟩
      · intro e
        exact le_trans (List.Sublist.countP_le _ hsub) (h1 e)
      · exact List.Nodup.sublist (List.Sublist.map _ hsub) h2
      · intro v hv'
        exact h3 v (List.Sublist.mem hv' hsub)

theorem inv3_applyOp (db : DB) (op : Op)
    (h1 : EmailsUnique db) (h2 : KeysNodup db) (h3 : KeysBounded db) :
    EmailsUnique (applyOp db op) ∧ KeysNodup (applyOp db op) ∧ KeysBounded (applyOp db op) := by
  cases op with
  | create n e p => exact inv3_create db ⟨n, e, p⟩ h1 h2 h3
  | update i n e p => exact inv3_update db i ⟨n, e, p⟩ h1 h2 h3
  | delete i => exact inv3_delete db i h1 h2 h3

theorem inv3_applyOps (db : DB) (ops : List Op)
    (h1 : EmailsUnique db) (h2 : KeysNodup db) (h3 : KeysBounded db) :
    EmailsUnique (applyOps db ops) ∧ KeysNodup (applyOps db ops) ∧
      KeysBounded (applyOps db ops) := by
  induction ops generalizing db with
  | nil => exact ⟨h1, h2, h3⟩
  | cons op rest ih =>
    have h := inv3_applyOp db op h1 h2 h3
    exact ih (applyOp db op) h.1 h.2.1 h.2.2

theorem wf_create (db : DB) (uc : UserCreate) (h3 : KeysBounded db)
    (hwf : WellFormed db) : WellFormed (create_user db uc).1 := by
  cases hf : findOneByEmail db uc.email with
  | some w => rw [create_user_conflict db uc w hf]; exact hwf
  | none =>
    rw [create_user_fresh db uc h3 hf]
    intro u hu
    rcases List.mem_append.mp hu with h | h
    · exact hwf u h
    · simp at h
      exact ⟨uc.name, uc.email, bcryptHashpw uc.password (bcryptGensalt db.saltCtr),
        by simp [h, createdDoc]⟩

theorem wf_update (db : DB) (s : String) (uu : UserUpdate)
    (hwf : WellFormed db) : WellFormed (update_user db s uu).1 := by
  cases hv : ObjectId_is_valid s with
  | false => rw [update_user_invalid db s uu hv]; exact hwf
  | true =>
    cases hfo : findOneById db (parseOid s) with
    | none => rw [update_user_missing db s uu hv hfo]; exact hwf
    | some u =>
      cases hg : findOneByEmailNe db uu.email (parseOid s) with
      | some w => rw [update_user_conflict db s uu u w hv hfo hg]; exact hwf
      | none =>
        rw [update_user_ok db s uu u hv hfo hg]
        intro v hv'
        rcases mem_setFirstMatch _ _ _ _ hv' with h | ⟨w, hw, he⟩
        · exact hwf v h
        · obtain ⟨a, b, c, hbody⟩ := hwf w hw
          refine ⟨uu.name, uu.email,
            bcryptHashpw uu.password (bcryptGensalt db.saltCtr), ?_⟩
          rw [he]
          show mongoSet w.body (updateFields db uu) = _
          rw [hbody, updateFields, mongoSet_wf]

theorem wf_delete (db : DB) (s : String) (hwf : WellFormed db) :
    WellFormed (delete_user db s).1 := by
  cases hv : ObjectId_is_valid s with
  | false => rw [delete_user_invalid db s hv]; exact hwf
  | true =>
    cases hfo : findOneById db (parseOid s) with
    | none => rw [delete_user_missing db s hv hfo]; exact hwf
    | some u =>
      rw [delete_user_found db s u hv hfo]
      intro v hv'
      exact hwf v (List.Sublist.mem hv' (deleteFirst_sublist (parseOid s) db.users))

theorem wf_applyOps (db : DB) (ops : List Op)
    (h1 : EmailsUnique db) (h2 : KeysNodup db) (h3 : KeysBounded db) (hwf : WellFormed db) :
    WellFormed (applyOps db ops) := by
  induction ops generalizing db with
  | nil => exact hwf
  | cons op rest ih =>
    have hinv := inv3_applyOp db op h1 h2 h3
    have hwf' : WellFormed (applyOp db op) := by
      cases op with
      | create n e p => exact wf_create db ⟨n, e, p⟩ h3 hwf
      | update i n e p => exact wf_update db i ⟨n, e, p⟩ hwf
      | delete i => exact wf_delete db i hwf
    exact ih (applyOp db op) hinv.1 hinv.2.1 hinv.2.2 hwf'

/-! Concrete stores used to evaluate the claims on explicit inputs. -/

/-- A store holding one user document whose stored body carries the
credential digest field with value H. -/
def leakDB : DB :=
  ⟨[⟨5, [("name", "Juan"), ("email", "juan@email.com"), ("hashed_password", "H")]⟩], 6, 0⟩

/-- A store holding one user document at key 10 (the key the
uppercase-hex identifier 00000000000000000000000A denotes). -/
def probeDoc : UserDoc :=
  ⟨10, [("name", "Ana"), ("email", "ana@email.com"), ("hashed_password", "H2")]⟩

/-- The store around probeDoc. -/
def probeDB : DB := ⟨[probeDoc], 11, 0⟩

/-- A store holding two user documents with distinct keys and emails. -/
def pairDB : DB :=
  ⟨[⟨0, [("name", "Juan"), ("email", "juan@email.com"), ("hashed_password", "H0")]⟩,
    ⟨1, [("name", "Ana"), ("email", "ana@email.com"), ("hashed_password", "H1")]⟩], 2, 0⟩

/-- The key format exactly as the spec words it: a 24-character
lowercase-hexadecimal token. -/
def specLowerHex24 (s : String) : Bool :=
  s.length == 24 && s.data.all (fun c => c.isDigit || ('a' ≤ c && c ≤ 'f'))

/-! The claims. -/

/-- C1: the claim says every List/Get/Create/Update response strips the
stored credential digest field.  The code never removes the
hashed_password field from the documents it returns (the route
docstrings claim it does): on a store holding one document with digest
H, the List response data and the Get response data both carry the
hashed_password field, and a Create response carries the digest of the
freshly hashed password. -/
theorem c1_responses_carry_credential_digest :
    (get_all_users leakDB).data
        = .docs [[("_id", "000000000000000000000005"), ("name", "Juan"),
                  ("email", "juan@email.com"), ("hashed_password", "H")]] ∧
    get_user leakDB "000000000000000000000005"
        = .ok (success_response
            (.doc [("_id", "000000000000000000000005"), ("name", "Juan"),
                   ("email", "juan@email.com"), ("hashed_password", "H")])
            "Usuario obtenido exitosamente" 200) ∧
    (create_user emptyDB ⟨"Juan", "juan@email.com", "secret1"⟩).2
        = .ok (success_response
            (.doc [("_id", oidToStr 0), ("name", "Juan"), ("email", "juan@email.com"),
                   ("hashed_password", bcryptHashpw "secret1" (bcryptGensalt 0))])
            "Usuario creado exitosamente" 201) := by
  refine ⟨by decide, rfl, rfl⟩

/-- C9: the hasher draws a fresh salt from the entropy stream on every
call (the stream position advances), distinct stream positions yield
distinct digests for the same plaintext, the digest is a single string
embedding the cost factor and the salt in front of the derived core,
and no digest equals its plaintext. -/
theorem c9_fresh_salt_per_call (db : DB) (p : String) :
    (hash_password db p).2.saltCtr = db.saltCtr + 1 ∧
    (∀ n m : Nat, n ≠ m →
      bcryptHashpw p (bcryptGensalt n) ≠ bcryptHashpw p (bcryptGensalt m)) ∧
    (hash_password db p).1 ≠ (hash_password (hash_password db p).2 p).1 ∧
    (hash_password db p).1
      = "$2b$12$" ++ String.mk (List.replicate (db.saltCtr + 1) 'a') ++ bcryptCore p ∧
    (hash_password db p).1 ≠ p := by
  have hcore : (bcryptCore p).length = p.length := by
    show (p.data.map _).length = p.data.length
    exact List.length_map _ _
  have hsalt : ∀ n : Nat, (String.mk (List.replicate (n + 1) 'a')).length = n + 1 := by
    intro n
    show (List.replicate (n + 1) 'a').length = n + 1
    exact List.length_replicate _ _
  have hlen : ∀ n : Nat, (bcryptHashpw p (bcryptGensalt n)).length = 7 + (n + 1) + p.length := by
    intro n
    show (("$2b$12$" ++ String.mk (List.replicate (n + 1) 'a')) ++ bcryptCore p).length = _
    rw [String.length_append, String.length_append, hcore, hsalt,
      show ("$2b$12$" : String).length = 7 from by decide]
  have hgen : ∀ n m : Nat, n ≠ m →
      bcryptHashpw p (bcryptGensalt n) ≠ bcryptHashpw p (bcryptGensalt m) := by
    intro n m hnm hcon
    have := congrArg String.length hcon
    rw [hlen n, hlen m] at this
    omega
  refine ⟨rfl, hgen, hgen db.saltCtr (db.saltCtr + 1) (by omega), ?_, ?_⟩
  · show bcryptHashpw p (bcryptGensalt db.saltCtr) = _
    rw [bcryptHashpw, bcryptGensalt, String.append_assoc]
  · intro hcon
    have := congrArg String.length hcon
    rw [show (hash_password db p).1 = bcryptHashpw p (bcryptGensalt db.saltCtr) from rfl,
      hlen db.saltCtr] at this
    omega

/-- C9 witness: two successive hasher calls on the same plaintext from
entropy positions 0 and 1 give distinct digests. -/
theorem c9_fresh_salt_per_call_witness :
    bcryptHashpw "secret1" (bcryptGensalt 0) ≠ bcryptHashpw "secret1" (bcryptGensalt 1) :=
  (c9_fresh_salt_per_call emptyDB "secret1").2.1 0 1 (by omega)

/-- C10: List always succeeds, its data is exactly the stored
documents in storage order (as document views), and the envelope count
equals the length of the data. -/
theorem c10_list_returns_all (db : DB) :
    get_all_users db
      = { success := true, statusCode := 200,
          message := "Se encontraron " ++ toString db.users.length ++ " usuarios",
          data := .docs (db.users.map docDict),
          count := some (db.users.map docDict).length } ∧
    (db.users.map docDict).length = db.users.length := by
  refine ⟨?_, List.length_map _ _⟩
  simp [get_all_users, success_response, List.length_map]

/-- C2: from a store state with unique emails (and the store-level key
uniqueness the store contract guarantees), every sequential sequence of
Create, Update and Delete operations preserves email uniqueness, and on
any such reachable state a Create whose email some stored user already
holds fails with AlreadyExists and leaves the store unchanged. -/
theorem c2_email_uniqueness_invariant (db : DB) (ops : List Op)
    (h1 : EmailsUnique db) (h2 : KeysNodup db) (h3 : KeysBounded db) :
    EmailsUnique (applyOps db ops) ∧
    ∀ uc : UserCreate, (∃ u, u ∈ (applyOps db ops).users ∧ emailOf u = some uc.email) →
      create_user (applyOps db ops) uc
        = (applyOps db ops, .error (.alreadyExists "Usuario" (some ("email " ++ uc.email)))) := by
  have h := inv3_applyOps db ops h1 h2 h3
  refine ⟨h.1, ?_⟩
  rintro uc ⟨u, hu, he⟩
  have hsome : (findOneByEmail (applyOps db ops) uc.email).isSome = true := by
    rw [findOneByEmail, List.find?_isSome]
    refine ⟨u, hu, ?_⟩
    rw [emailOf] at he
    simp [he]
  obtain ⟨w, hw⟩ := Option.isSome_iff_exists.mp hsome
  exact create_user_conflict _ uc w hw

/-- C2 witness: starting from the empty store, after creating one user
a second sequential Create with the same email fails with
AlreadyExists and inserts nothing. -/
theorem c2_email_uniqueness_invariant_witness :
    create_user (applyOps emptyDB [Op.create "Juan" "juan@email.com" "secret1"])
        ⟨"Ana", "juan@email.com", "secret2"⟩
      = (applyOps emptyDB [Op.create "Juan" "juan@email.com" "secret1"],
         .error (.alreadyExists "Usuario" (some ("email " ++ "juan@email.com")))) := by
  refine (c2_email_uniqueness_invariant emptyDB _ ?_ ?_ ?_).2 _ ?_
  · intro e
    rw [emailCount]
    simp [emptyDB]
  · simp [KeysNodup, emptyDB]
  · intro u hu
    simp [emptyDB] at hu
  · exact ⟨⟨0, [("name", "Juan"), ("email", "juan@email.com"),
        ("hashed_password", bcryptHashpw "secret1" (bcryptGensalt 0))]⟩,
      by decide, by decide⟩

/-- C3: on a store-valid state, Create with an email some document
already holds fails with AlreadyExists and changes nothing (the store,
the next key and the entropy position are untouched, so no hashing is
performed); on a fresh email it hashes the secret, appends exactly one
document carrying name, email and digest, re-reads it by the assigned
key and returns its view with status 201. -/
theorem c3_create_protocol (db : DB) (uc : UserCreate) (hb : KeysBounded db) :
    ((findOneByEmail db uc.email).isSome = true →
       create_user db uc
         = (db, .error (.alreadyExists "Usuario" (some ("email " ++ uc.email))))) ∧
    (findOneByEmail db uc.email = none →
       create_user db uc
         = ({ users := db.users ++ [createdDoc db uc],
              nextOid := db.nextOid + 1, saltCtr := db.saltCtr + 1 },
            .ok (success_response (.doc (docDict (createdDoc db uc)))
              "Usuario creado exitosamente" 201))) := by
  constructor
  · intro h
    obtain ⟨w, hw⟩ := Option.isSome_iff_exists.mp h
    exact create_user_conflict db uc w hw
  · intro h
    exact create_user_fresh db uc hb h

/-- C3 witness: creating a user in the empty store inserts exactly the
document with the hashed secret and returns it with status 201. -/
theorem c3_create_protocol_witness :
    create_user emptyDB ⟨"Juan", "juan@email.com", "secret1"⟩
      = ({ users := emptyDB.users ++ [createdDoc emptyDB ⟨"Juan", "juan@email.com", "secret1"⟩],
           nextOid := emptyDB.nextOid + 1, saltCtr := emptyDB.saltCtr + 1 },
         .ok (success_response
           (.doc (docDict (createdDoc emptyDB ⟨"Juan", "juan@email.com", "secret1"⟩)))
           "Usuario creado exitosamente" 201)) :=
  (c3_create_protocol emptyDB ⟨"Juan", "juan@email.com", "secret1"⟩
    (by intro u hu; simp [emptyDB] at hu)).2 rfl

/-- C4 counterexample: the uppercase-hexadecimal identifier
00000000000000000000000A is not a 24-character lowercase-hexadecimal
token, yet identifier validation accepts it and Get on it reaches the
store and succeeds, instead of failing with InvalidIdentifier as the
claim states. -/
theorem c4_lowercase_only_is_false :
    specLowerHex24 "00000000000000000000000A" = false ∧
    ObjectId_is_valid "00000000000000000000000A" = true ∧
    get_user probeDB "00000000000000000000000A"
      = .ok (success_response (.doc (docDict probeDoc))
          "Usuario obtenido exitosamente" 200) := by
  refine ⟨by decide, by decide, rfl⟩

/-- C4 amended: identifier validation accepts exactly the 24-character
strings bytes.fromhex decodes, that is hexadecimal digit pairs with
lowercase and uppercase digits alike and ASCII whitespace skipped
between pairs, the decoded byte count never rechecked: an uppercase
identifier and a whitespace-padded identifier of fewer than twelve
decoded bytes both pass validation and reach the store (the latter
then yields NotFound, 404, not InvalidIdentifier), while a whitespace
splitting a digit pair is rejected; on every identifier string failing
the validation, Get, Update and Delete fail with InvalidIdentifier
(400) with a result independent of the store state, so no store access
can influence it. -/
theorem c4_invalid_id_rejected_before_store (s : String)
    (hv : ObjectId_is_valid s = false) :
    (∀ db : DB, get_user db s
        = .error (.badRequest "ID de usuario inválido" none (some s))) ∧
    (∀ (db : DB) (uu : UserUpdate), update_user db s uu
        = (db, .error (.badRequest "ID de usuario inválido" none (some s)))) ∧
    (∀ db : DB, delete_user db s
        = (db, .error (.badRequest "ID de usuario inválido" none (some s)))) ∧
    (ObjectId_is_valid "00000000000000000000000A" = true ∧
     ObjectId_is_valid "0000000000000000000000  " = true ∧
     ObjectId_is_valid "0 0000000000000000000000" = false ∧
     get_user emptyDB "0000000000000000000000  "
        = .error (.notFound "Usuario" (some "0000000000000000000000  "))) := by
  exact ⟨fun db => get_user_invalid db s hv,
    fun db uu => update_user_invalid db s uu hv,
    fun db => delete_user_invalid db s hv,
    by decide, by decide, by decide, rfl⟩

/-- C4 witness: a malformed identifier is rejected with
InvalidIdentifier by Get regardless of the store. -/
theorem c4_invalid_id_rejected_before_store_witness :
    get_user probeDB "xyz"
      = .error (.badRequest "ID de usuario inválido" none (some "xyz")) :=
  (c4_invalid_id_rejected_before_store "xyz" (by decide)).1 probeDB

/-- C5: on an existing user, Update whose new email some other stored
document (different key) holds fails with AlreadyExists and changes
nothing; Update whose new email equals the current email of the target
user itself, no other document holding it, succeeds. -/
theorem c5_update_email_guard (db : DB) (s : String) (uu : UserUpdate) (u : UserDoc)
    (hv : ObjectId_is_valid s = true) (hf : findOneById db (parseOid s) = some u) :
    ((∃ v, v ∈ db.users ∧ v.oid ≠ parseOid s ∧ emailOf v = some uu.email) →
       update_user db s uu
         = (db, .error (.alreadyExists "Usuario" (some ("email " ++ uu.email))))) ∧
    (emailOf u = some uu.email →
      (∀ v ∈ db.users, v.oid ≠ parseOid s → emailOf v ≠ some uu.email) →
      ∃ env, update_user db s uu = ((update_user db s uu).1, .ok env)) := by
  constructor
  · rintro ⟨v, hv', hne, he⟩
    have hsome : (findOneByEmailNe db uu.email (parseOid s)).isSome = true := by
      rw [findOneByEmailNe, List.find?_isSome]
      refine ⟨v, hv', ?_⟩
      rw [emailOf] at he
      simp [he, hne]
    obtain ⟨w, hw⟩ := Option.isSome_iff_exists.mp hsome
    exact update_user_conflict db s uu u w hv hf hw
  · intro _hown hother
    have hg : findOneByEmailNe db uu.email (parseOid s) = none := by
      rw [findOneByEmailNe, List.find?_eq_none]
      intro v hv' hcon
      simp at hcon
      exact absurd (by rw [emailOf]; exact hcon.1) (hother v hv' hcon.2)
    rw [update_user_ok db s uu u hv hf hg]
    exact ⟨_, rfl⟩

/-- C5 witness: updating user 0 to the email user 1 already holds
fails with AlreadyExists and leaves the store unchanged. -/
theorem c5_update_email_guard_witness :
    update_user pairDB "000000000000000000000000" ⟨"Juan", "ana@email.com", "newpass1"⟩
      = (pairDB, .error (.alreadyExists "Usuario" (some ("email " ++ "ana@email.com")))) := by
  refine (c5_update_email_guard pairDB "000000000000000000000000"
    ⟨"Juan", "ana@email.com", "newpass1"⟩
    ⟨0, [("name", "Juan"), ("email", "juan@email.com"), ("hashed_password", "H0")]⟩
    (by decide) (by decide)).1 ?_
  exact ⟨⟨1, [("name", "Ana"), ("email", "ana@email.com"), ("hashed_password", "H1")]⟩,
    by decide, by decide, by decide⟩

/-- C6: on a store whose documents have the created shape, a
successful Update replaces the entire document body: afterwards the
document at the target key consists exactly of the new name, the new
email and the new credential digest, no field of the previous body
surviving, while the key itself is unchanged. -/
theorem c6_update_full_replace (db : DB) (s : String) (uu : UserUpdate) (u : UserDoc)
    (hwf : WellFormed db) (hv : ObjectId_is_valid s = true)
    (hf : findOneById db (parseOid s) = some u)
    (hg : findOneByEmailNe db uu.email (parseOid s) = none) :
    findOneById (update_user db s uu).1 (parseOid s)
      = some ⟨parseOid s,
          [("name", uu.name), ("email", uu.email),
           ("hashed_password", bcryptHashpw uu.password (bcryptGensalt db.saltCtr))]⟩ := by
  rw [update_user_ok db s uu u hv hf hg]
  show (setFirstMatch (parseOid s) (updateFields db uu) db.users).find?
    (fun v => v.oid == parseOid s) = _
  rw [find?_setFirstMatch _ _ _ _ hf]
  obtain ⟨a, b, c, hbody⟩ := hwf u (List.mem_of_find?_eq_some hf)
  have hoid : u.oid = parseOid s := by
    have h := List.find?_some hf
    simpa using h
  have hrepl : mongoSet u.body (updateFields db uu) = updateFields db uu := by
    rw [hbody, updateFields]
    exact mongoSet_wf a b c _ _ _
  rw [hrepl, updateFields, hoid]

/-- C6 witness: a successful update of user 0 leaves at key 0 exactly
the three new fields. -/
theorem c6_update_full_replace_witness :
    findOneById (update_user pairDB "000000000000000000000000"
        ⟨"Juanito", "juan2@email.com", "newpass1"⟩).1
        (parseOid "000000000000000000000000")
      = some ⟨parseOid "000000000000000000000000",
          [("name", "Juanito"), ("email", "juan2@email.com"),
           ("hashed_password", bcryptHashpw "newpass1" (bcryptGensalt 0))]⟩ := by
  refine c6_update_full_replace pairDB "000000000000000000000000"
    ⟨"Juanito", "juan2@email.com", "newpass1"⟩
    ⟨0, [("name", "Juan"), ("email", "juan@email.com"), ("hashed_password", "H0")]⟩
    ?_ (by decide) (by decide) (by decide)
  intro v hv
  simp [pairDB] at hv
  rcases hv with rfl | rfl
  · exact ⟨"Juan", "juan@email.com", "H0", rfl⟩
  · exact ⟨"Ana", "ana@email.com", "H1", rfl⟩

/-- C7: Delete on an existing id succeeds with deleted count 1 and
removes exactly that document; a subsequent Get, Update or Delete on
the same id fails with NotFound; and the response tail the route runs
after the existence check wraps whatever count the store reports in a
success envelope, so a count of 0 would still be reported as success
with count 0, not as an error. -/
theorem c7_delete_semantics (db : DB) (s : String) (u : UserDoc)
    (hnd : KeysNodup db) (hv : ObjectId_is_valid s = true)
    (hf : findOneById db (parseOid s) = some u) :
    (delete_user db s).2
        = .ok (success_response (.delCount 1) "Usuario eliminado exitosamente" 200) ∧
    (delete_user db s).1.users.length + 1 = db.users.length ∧
    get_user (delete_user db s).1 s = .error (.notFound "Usuario" (some s)) ∧
    (∀ uu : UserUpdate, update_user (delete_user db s).1 s uu
        = ((delete_user db s).1, .error (.notFound "Usuario" (some s)))) ∧
    delete_user (delete_user db s).1 s
        = ((delete_user db s).1, .error (.notFound "Usuario" (some s))) ∧
    ((deleteFinish 0).success = true ∧ (deleteFinish 0).statusCode = 200 ∧
      (deleteFinish 0).data = .delCount 0) := by
  have hdel := delete_user_found db s u hv hf
  have hspec := deleteFirst_of_find? (parseOid s) db.users u hf
  have hnone : findOneById (delete_user db s).1 (parseOid s) = none := by
    rw [hdel]
    exact find?_deleteFirst_none (parseOid s) db.users hnd
  refine ⟨?_, ?_, get_user_missing _ s hv hnone,
    fun uu => update_user_missing _ s uu hv hnone,
    delete_user_missing _ s hv hnone, rfl, rfl, rfl⟩
  · rw [hdel, hspec.1]
    rfl
  · rw [hdel]
    exact hspec.2

/-- C7 witness: deleting user 0 from the two-user store responds with
deleted count 1. -/
theorem c7_delete_semantics_witness :
    (delete_user pairDB "000000000000000000000000").2
      = .ok (success_response (.delCount 1) "Usuario eliminado exitosamente" 200) :=
  (c7_delete_semantics pairDB "000000000000000000000000"
    ⟨0, [("name", "Juan"), ("email", "juan@email.com"), ("hashed_password", "H0")]⟩
    (by show (pairDB.users.map UserDoc.oid).Nodup; decide) (by decide) (by decide)).1

/-- C8 counterexample: the AlreadyExists raised when Create hits a
stored email carries identifier "email juan@email.com", which is the
conflicting email prefixed by another word rather than the email
itself, and a resource label that is not the string User. -/
theorem c8_identifier_not_verbatim_email :
    (create_user leakDB ⟨"Ana", "juan@email.com", "secret2"⟩).2
        = .error (.alreadyExists "Usuario" (some "email juan@email.com")) ∧
    (AppError.alreadyExists "Usuario" (some "email juan@email.com")).identifier
        ≠ some "juan@email.com" ∧
    (AppError.alreadyExists "Usuario" (some "email juan@email.com")).resource
        ≠ some "User" := by
  refine ⟨rfl, by decide, by decide⟩

/-- C8 amended: the classified errors map to their fixed statuses
(InvalidIdentifier 400, AlreadyExists 409, NotFound 404), the error
envelope carries the human-readable message and the resource and
identifier context verbatim, and the AlreadyExists raised by Create
carries the resource label Usuario and an identifier consisting of the
word email followed by the conflicting email. -/
theorem c8_error_taxonomy (db : DB) (uc : UserCreate) (u : UserDoc)
    (hu : u ∈ db.users) (he : emailOf u = some uc.email) :
    (create_user db uc).2
        = .error (.alreadyExists "Usuario" (some ("email " ++ uc.email))) ∧
    (error_envelope (.alreadyExists "Usuario" (some ("email " ++ uc.email))))
        = { success := false, statusCode := 409,
            message := "Usuario" ++ " ya existe" ++ " con: " ++ ("email " ++ uc.email),
            data := .errCtx (some "Usuario") (some ("email " ++ uc.email)),
            count := none } ∧
    (∀ (m : String) (r i : Option String),
        (error_envelope (.badRequest m r i)).statusCode = 400 ∧
        (error_envelope (.badRequest m r i)).message = m ∧
        (error_envelope (.badRequest m r i)).data = .errCtx r i) ∧
    (∀ (r : String) (i : Option String),
        (error_envelope (.alreadyExists r i)).statusCode = 409 ∧
        (error_envelope (.notFound r i)).statusCode = 404 ∧
        (error_envelope (.notFound r i)).data = .errCtx (some r) i) := by
  have hsome : (findOneByEmail db uc.email).isSome = true := by
    rw [findOneByEmail, List.find?_isSome]
    refine ⟨u, hu, ?_⟩
    rw [emailOf] at he
    simp [he]
  obtain ⟨w, hw⟩ := Option.isSome_iff_exists.mp hsome
  refine ⟨?_, rfl, fun m r i => ⟨rfl, rfl, rfl⟩, fun r i => ⟨rfl, rfl, rfl⟩⟩
  rw [create_user_conflict db uc w hw]

/-- C8 witness: the taxonomy theorem applied to a concrete conflicting
Create. -/
theorem c8_error_taxonomy_witness :
    (create_user leakDB ⟨"Pedro", "juan@email.com", "secret3"⟩).2
      = .error (.alreadyExists "Usuario" (some ("email " ++ "juan@email.com"))) :=
  (c8_error_taxonomy leakDB ⟨"Pedro", "juan@email.com", "secret3"⟩
    ⟨5, [("name", "Juan"), ("email", "juan@email.com"), ("hashed_password", "H")]⟩
    (by decide) (by decide)).1

end UserSvc
